import Mathlib

/-!
# Verification of the `dfcleaner` time-series normalization pipeline

Shallow embedding of `dfcleaner/core.py` (class `DFCleaner`).

Modelling choices:

* A pandas `DataFrame` is a `Table`: an ordered list of column names with
  their dtypes (object vs numeric), and rows, each row paired with its
  index label.  Index labels (`IdxVal`) are range positions (the default
  `RangeIndex`), int64 values (the `year` parsing branch produces an
  integer index via `.dt.year`), timestamps, or missing (`NaT`).
* A timestamp index label is its clock value in milliseconds since the
  Unix epoch, as displayed in the index's own timezone.  The timezone
  state of a datetime index is a single tag at the index level
  (`IdxDtype.dtime tz`), matching pandas where a `DatetimeIndex` carries
  one `tz`.  Timezones are names with a fixed offset given by an
  arbitrary `off : String → Int` parameter (milliseconds); `tz_localize`
  keeps clock values and retags, `tz_convert` shifts clock values by the
  offset difference and retags.
* Impure ingredients are passed explicitly: the wall clock `now`
  (`pd.Timestamp.now` / `datetime.date.today`), the external general
  parser `pd.to_datetime(..., errors='coerce')` (`gp`), the external
  `pd.infer_freq` (`inferF`, which may raise, hence `Except`), and the
  zone-offset table `off`.
* Python exceptions are modelled by `Except String`; functions that the
  source cannot make raise are total.
* Python string helpers (`str.lower`, `str.replace` with `regex=False`,
  numeric parsing of `pd.to_numeric`) are re-implemented structurally on
  `List Char` so that every definition reduces in the kernel; `lower` is
  modelled on ASCII letters, which covers all column names involved.
-/

/-! ## Cells, index values and dtypes -/

/-- A cell of a DataFrame column: a string, a number, or missing (`NaN`). -/
inductive Cell where
  | str (s : String)
  | num (n : Int)
  | missing
deriving DecidableEq

/-- An index label: a `RangeIndex` position, an int64 value, a timestamp
(clock milliseconds since the Unix epoch), or missing (`NaT`). -/
inductive IdxVal where
  | pos (n : Nat)
  | int (z : Int)
  | ts (clock : Int)
  | missing
deriving DecidableEq

/-- The dtype of the index: default range, int64, or datetime64 with an
optional timezone. -/
inductive IdxDtype where
  | range
  | int64
  | dtime (tz : Option String)
deriving DecidableEq

/-- The dtype of a data column, as far as `select_dtypes` cares:
object/string vs numeric. -/
inductive CDtype where
  | obj
  | numeric
deriving DecidableEq

/-- A pandas `DataFrame`: column names, column dtypes, and rows, each row
paired with its index label. -/
structure Table where
  colNames : List String
  colDtypes : List CDtype
  data : List (IdxVal × List Cell)
  idxDtype : IdxDtype
deriving DecidableEq

instance : Inhabited Table := ⟨⟨[], [], [], IdxDtype.range⟩⟩

/-- The index of a table, in row order. -/
def Table.index (df : Table) : List IdxVal := df.data.map Prod.fst

/-! ## Calendar arithmetic

Clock values are milliseconds since 1970-01-01 00:00.  Conversion between
day counts and Gregorian calendar dates uses the standard civil-calendar
algorithm; it is exercised only at concrete dates, by evaluation. -/

def msPerDay : Int := 86400000

/-- Days since 1970-01-01 of the Gregorian date `y-m-d`. -/
def daysFromCivil (y m d : Int) : Int :=
  let y2 := if m ≤ 2 then y - 1 else y
  let era := y2.fdiv 400
  let yoe := y2 - era * 400
  let mp := (m + 9).fmod 12
  let doy := (153 * mp + 2).fdiv 5 + d - 1
  let doe := yoe * 365 + yoe.fdiv 4 - yoe.fdiv 100 + doy
  era * 146097 + doe - 719468

/-- Gregorian date `(year, month, day)` of a day count since 1970-01-01. -/
def civilFromDays (z0 : Int) : Int × Int × Int :=
  let z := z0 + 719468
  let era := z.fdiv 146097
  let doe := z - era * 146097
  let yoe := (doe - doe.fdiv 1460 + doe.fdiv 36524 - doe.fdiv 146096).fdiv 365
  let doy := doe - (365 * yoe + yoe.fdiv 4 - yoe.fdiv 100)
  let mp := (5 * doy + 2).fdiv 153
  let d := doy - (153 * mp + 2).fdiv 5 + 1
  let m := if mp < 10 then mp + 3 else mp - 9
  let y := yoe + era * 400 + (if m ≤ 2 then 1 else 0)
  (y, m, d)

/-- Clock milliseconds of midnight of the Gregorian date `y-m-d`. -/
def dms (y m d : Int) : Int := daysFromCivil y m d * msPerDay

/-- Python `datetime.weekday`: Monday = 0 … Sunday = 6 (1970-01-01 was a
Thursday). -/
def weekdayOf (t : Int) : Int := (t.fdiv msPerDay + 3).fmod 7

/-- Civil rendering of a clock value: `((year, month, day), (h, min, s))`. -/
def msToCivil (ms : Int) : (Int × Int × Int) × (Int × Int × Int) :=
  let days := ms.fdiv msPerDay
  let rem := ms - days * msPerDay
  let secs := rem.fdiv 1000
  (civilFromDays days, (secs.fdiv 3600, (secs.fdiv 60).fmod 60, secs.fmod 60))

/-! ## String helpers (kernel-reducible models of the Python ones) -/

/-- ASCII `str.lower` on a character. -/
def lowerChar (c : Char) : Char :=
  if 65 ≤ c.toNat ∧ c.toNat ≤ 90 then Char.ofNat (c.toNat + 32) else c

/-- ASCII `str.lower`. -/
def lowerStr (s : String) : String := ⟨s.data.map lowerChar⟩

/-- Membership of a string in a list of strings (Python `in`). -/
def memStr (x : String) : List String → Bool
  | [] => false
  | y :: rest => if x = y then true else memStr x rest

/-- One pass of literal (non-regex) replacement over a character list;
the fuel argument starts at the input length and makes the recursion
structural.  Matches Python `str.replace`: left to right, all
non-overlapping occurrences. -/
def replLoop (pat rep : List Char) : Nat → List Char → List Char
  | _, [] => []
  | 0, l => l
  | Nat.succ fuel, c :: rest =>
      if pat.isPrefixOf (c :: rest) then
        rep ++ replLoop pat rep fuel (List.drop (pat.length - 1) rest)
      else
        c :: replLoop pat rep fuel rest

/-- Literal replacement of every occurrence of `pat` by `rep` in `s`,
the model of `Series.str.replace(pat, rep, regex=False)`. -/
def strReplace (s pat rep : String) : String :=
  match pat.data with
  | [] => s
  | _ => ⟨replLoop pat.data rep.data s.data.length s.data⟩

/-- Digit-list accumulator for decimal parsing. -/
def digitsToNatGo (acc : Nat) : List Char → Option Nat
  | [] => some acc
  | c :: rest =>
      if 48 ≤ c.toNat ∧ c.toNat ≤ 57 then
        digitsToNatGo (acc * 10 + (c.toNat - 48)) rest
      else none

/-- Parse a nonempty all-digit string as a `Nat`. -/
def strToNatQ (s : String) : Option Nat :=
  match s.data with
  | [] => none
  | l => digitsToNatGo 0 l

/-- Parse an optionally signed integer literal, the integral fragment of
`pd.to_numeric`. -/
def parseIntStr (s : String) : Option Int :=
  match s.data with
  | [] => none
  | c :: rest =>
      if c = '-' then
        match rest with
        | [] => none
        | _ => (digitsToNatGo 0 rest).map (fun n => -(n : Int))
      else if c = '+' then
        match rest with
        | [] => none
        | _ => (digitsToNatGo 0 rest).map (fun n => (n : Int))
      else (digitsToNatGo 0 (c :: rest)).map (fun n => (n : Int))

/-- Index of the first column with the given name. -/
def colIdx (c : String) : List String → Option Nat
  | [] => none
  | n :: rest => if n = c then some 0 else (colIdx c rest).map (· + 1)

/-! ## Time Column Detector (`DFCleaner.detect_time_col`) -/

/-- The fixed vocabulary of recognized time-column names. -/
def time_cols_base : List String :=
  ["date", "dt", "hour", "time", "day", "month", "year", "week", "timestamp",
   "block_timestamp", "ds", "period", "date_time", "trunc_date", "quarter",
   "block_time", "block_date", "date(utc)"]

/-- The vocabulary used for one call: the base list, extended by the
lowercased hint when one is given (the source appends to a list that is
rebuilt on every call). -/
def hintVocab : Option String → List String
  | some cc => time_cols_base ++ [lowerStr cc]
  | none => time_cols_base

/-- The scanning loop of `detect_time_col`: first column whose lowercased
name is in the vocabulary. -/
def detectGo (tc : List String) : List String → Option String
  | [] => none
  | c :: rest => if memStr (lowerStr c) tc then some c else detectGo tc rest

/-- `DFCleaner.detect_time_col`. -/
def detect_time_col (df : Table) (custom_col : Option String) : Option String :=
  detectGo (hintVocab custom_col) df.colNames

/-! ## Timezone Policy (`DFCleaner.apply_timezone`) -/

/-- Shift a timestamp label by an offset difference (`tz_convert`);
other labels (including `NaT`) are untouched. -/
def shiftIdx (d : Int) : IdxVal → IdxVal
  | IdxVal.ts c => IdxVal.ts (c + d)
  | v => v

/-- `DFCleaner.apply_timezone`: a no-op on a non-datetime index; with a
configured zone, a naive index is `tz_localize`d (clock values kept) and
an aware one `tz_convert`ed (clock values shifted by the offset
difference); with no configured zone, awareness is stripped keeping the
clock values (`tz_localize(None)`, which is also a no-op on an already
naive index). -/
def apply_timezone (cfg : Option String) (off : String → Int) (df : Table) : Table :=
  match df.idxDtype with
  | IdxDtype.dtime tz =>
    match cfg with
    | some z =>
      match tz with
      | none => { df with idxDtype := IdxDtype.dtime (some z) }
      | some z0 =>
          { df with
            idxDtype := IdxDtype.dtime (some z),
            data := df.data.map (fun p => (shiftIdx (off z - off z0) p.1, p.2)) }
    | none => { df with idxDtype := IdxDtype.dtime none }
  | _ => df

/-! ## Timestamp Indexer (`DFCleaner.to_time`) -/

/-- `astype(str)` on a cell. -/
def astypeStr : Cell → String
  | Cell.str s => s
  | Cell.num n => toString n
  | Cell.missing => "nan"

/-- `pd.to_datetime(..., format='%Y')` on one rendered cell: accepts an
all-digit year of at most four digits, otherwise raises. -/
def parseYearStr (s : String) : Option Int :=
  match strToNatQ s with
  | some n => if s.length ≤ 4 then some (Int.ofNat n) else none
  | none => none

/-- The `year` branch of `to_time` on one cell: `astype(str)` then strict
`%Y` parsing then `.dt.year`; a non-year cell raises. -/
def parseYearCell (c : Cell) : Except String IdxVal :=
  match parseYearStr (astypeStr c) with
  | some y => Except.ok (IdxVal.int y)
  | none => Except.error ("time data " ++ astypeStr c ++ " does not match format %Y")

/-- The `timestamp` branch of `to_time` on one cell:
`pd.to_datetime(..., unit='ms')` with the default `errors='raise'`;
an integer is milliseconds since the epoch, missing stays `NaT`, and a
string raises. -/
def parseMsCell : Cell → Except String IdxVal
  | Cell.num n => Except.ok (IdxVal.ts n)
  | Cell.missing => Except.ok IdxVal.missing
  | Cell.str s => Except.error ("non convertible value " ++ s)

/-- The general branch of `to_time` on one cell:
`pd.to_datetime(..., dayfirst=dayfirst, errors='coerce')` where the
external parser `gp` is explicit; any failure becomes `NaT`. -/
def coerceG (gp : Bool → Cell → Option Int) (dayfirst : Bool) : Cell → IdxVal
  | Cell.missing => IdxVal.missing
  | c =>
      match gp dayfirst c with
      | some t => IdxVal.ts t
      | none => IdxVal.missing

/-- Error-propagating map over the cells of a column, raising at the
first offending cell. -/
def mapMExc (f : Cell → Except String IdxVal) : List Cell → Except String (List IdxVal)
  | [] => Except.ok []
  | c :: rest =>
      match f c with
      | Except.error e => Except.error e
      | Except.ok v =>
          match mapMExc f rest with
          | Except.error e => Except.error e
          | Except.ok vs => Except.ok (v :: vs)

/-- `df[c]`: the cells of column `c`, or `none` when the column is absent
(a `KeyError` in the source). -/
def getColCells (df : Table) (c : String) : Option (List Cell) :=
  match colIdx c df.colNames with
  | some i => some (df.data.map (fun p => p.2.getD i Cell.missing))
  | none => none

/-- `df.set_index(c, inplace=True)` after the parsed values were written
back to column `c`: the parsed values become the index and the column is
removed from the column set. -/
def set_indexT (df : Table) (c : String) (newIdx : List IdxVal) (dt : IdxDtype) : Table :=
  match colIdx c df.colNames with
  | some i =>
      { colNames := df.colNames.eraseIdx i,
        colDtypes := df.colDtypes.eraseIdx i,
        data := List.zipWith (fun v p => (v, p.2.eraseIdx i)) newIdx df.data,
        idxDtype := dt }
  | none => df

/-- The frequency computation of `to_time`: `pd.infer_freq` (passed in as
`inferF`, an external that may raise) is consulted only for an index with
at least 3 entries; a falsy result or any raised error falls back to the
`'D'` default (the `try`/`except` of the source). -/
def freqOf (inferF : List IdxVal → Except String (Option String)) (idx : List IdxVal) : String :=
  if 3 ≤ idx.length then
    match inferF idx with
    | Except.ok (some f) => if f = "" then "D" else f
    | Except.ok none => "D"
    | Except.error _ => "D"
  else "D"

/-- The three-way parsing branch of `to_time`, keyed on the lowercased
column name: `year` (strict `%Y` then `.dt.year`), `timestamp`
(milliseconds since epoch, raising on strings), otherwise the general
coercing parse. -/
def parseColumn (gp : Bool → Cell → Option Int) (dayfirst : Bool)
    (c : String) (cells : List Cell) : Except String (List IdxVal × IdxDtype) :=
  if lowerStr c = "year" then
    match mapMExc parseYearCell cells with
    | Except.error e => Except.error e
    | Except.ok l => Except.ok (l, IdxDtype.int64)
  else if lowerStr c = "timestamp" then
    match mapMExc parseMsCell cells with
    | Except.error e => Except.error e
    | Except.ok l => Except.ok (l, IdxDtype.dtime none)
  else
    Except.ok (cells.map (coerceG gp dayfirst), IdxDtype.dtime none)

/-- `DFCleaner.to_time`: resolve the time column (explicit argument, else
detector), parse it by the column-name-specific rule, promote it to the
index, apply the timezone policy, then infer the frequency. -/
def to_time (gp : Bool → Cell → Option Int)
    (inferF : List IdxVal → Except String (Option String))
    (cfg : Option String) (off : String → Int)
    (df : Table) (time_col : Option String) (dayfirst : Bool) :
    Except String (Table × String) :=
  let col := match time_col with
    | some c => some c
    | none => detect_time_col df none
  match col with
  | none => Except.ok (df, "D")
  | some c =>
    match getColCells df c with
    | none => Except.error ("KeyError: " ++ c)
    | some cells =>
      match parseColumn gp dayfirst c cells with
      | Except.error e => Except.error e
      | Except.ok (idx, dt) =>
        let df2 := apply_timezone cfg off (set_indexT df c idx dt)
        Except.ok (df2, freqOf inferF df2.index)

/-! ## Period Trimmer (`DFCleaner.clean_dates`) -/

/-- The `today` of `clean_dates`: with an aware index,
`pd.Timestamp.now(tz)` (the clock reading `now`); with a naive index,
`pd.to_datetime(datetime.date.today())`, i.e. midnight of the current
date. -/
def todayOf (now : Int) (tz : Option String) : Int :=
  match tz with
  | some _ => now
  | none => now.fdiv msPerDay * msPerDay

/-- `today.replace(day=1)`: first day of the current month, keeping the
time of day. -/
def replaceDay1 (t : Int) : Int :=
  let days := t.fdiv msPerDay
  let tod := t - days * msPerDay
  let c := civilFromDays days
  daysFromCivil c.1 c.2.1 1 * msPerDay + tod

/-- `pd.Timestamp(datetime.date(today.year, (q - 1) * 3 + 1, 1))`:
midnight of the first day of the current calendar quarter (the source's
`tz_localize` of this boundary keeps the clock value, so it does not show
up in the clock model). -/
def quarterStartOf (t : Int) : Int :=
  let c := civilFromDays (t.fdiv msPerDay)
  let q := (c.2.1 - 1).fdiv 3 + 1
  daysFromCivil c.1 ((q - 1) * 3 + 1) 1 * msPerDay

/-- `df.index < boundary` on one label: only an actual timestamp can be
strictly before the boundary; `NaT` (and any non-timestamp label)
compares false. -/
def idxLT : IdxVal → Int → Bool
  | IdxVal.ts c, b => decide (c < b)
  | _, _ => false

/-- `df[df.index < b]`. -/
def filterLt (df : Table) (b : Int) : Table :=
  { df with data := df.data.filter (fun p => idxLT p.1 b) }

/-- Rank of an index label for sorting (`NaT` last, matching
`sort_index`'s `na_position='last'`). -/
def idxRank : IdxVal → Nat
  | IdxVal.pos _ => 0
  | IdxVal.int _ => 1
  | IdxVal.ts _ => 2
  | IdxVal.missing => 3

/-- Value of an index label within its rank. -/
def idxKeyV : IdxVal → Int
  | IdxVal.pos n => (n : Int)
  | IdxVal.int z => z
  | IdxVal.ts c => c
  | IdxVal.missing => 0

/-- Ascending order on index labels (rank-lexicographic; on timestamps it
is the clock order). -/
def idxLE (a b : IdxVal) : Prop :=
  idxRank a < idxRank b ∨ (idxRank a = idxRank b ∧ idxKeyV a ≤ idxKeyV b)

instance : DecidableRel idxLE := fun a b => by
  unfold idxLE; infer_instance

/-- Row order induced by the index labels. -/
def rowLE (a b : IdxVal × List Cell) : Prop := idxLE a.1 b.1

instance : DecidableRel rowLE := fun a b => by
  unfold rowLE; infer_instance

instance : IsTotal (IdxVal × List Cell) rowLE :=
  ⟨by intro a b; unfold rowLE idxLE; omega⟩

instance : IsTrans (IdxVal × List Cell) rowLE :=
  ⟨by intro a b c hab hbc; unfold rowLE idxLE at *; omega⟩

/-- `df.sort_index()`. -/
def sortTable (df : Table) : Table :=
  { df with data := List.insertionSort rowLE df.data }

/-- `DFCleaner.clean_dates`: drop every row of the current incomplete
period and return the rest sorted ascending by index.  Reading
`df.index.tz` on a non-datetime index raises `AttributeError`.  The
clock reading is the explicit parameter `now`. -/
def clean_dates (now : Int) (df : Table) (time_freq : String) : Except String Table :=
  match df.idxDtype with
  | IdxDtype.dtime tz =>
    let today := todayOf now tz
    let trimmed :=
      if time_freq = "W" then filterLt df (today - weekdayOf today * msPerDay)
      else if time_freq = "M" then filterLt df (replaceDay1 today)
      else if time_freq = "Q" then filterLt df (quarterStartOf today)
      else filterLt df today
    Except.ok (sortTable trimmed)
  | _ => Except.error "AttributeError: index has no attribute tz"

/-- The trim boundary of `clean_dates`, by frequency. -/
def boundaryOf (now : Int) (tz : Option String) (time_freq : String) : Int :=
  let today := todayOf now tz
  if time_freq = "W" then today - weekdayOf today * msPerDay
  else if time_freq = "M" then replaceDay1 today
  else if time_freq = "Q" then quarterStartOf today
  else today

/-! ## Numeric Normalizer (`DFCleaner.cleaning_values`) -/

/-- The replacement chain of `cleaning_values`, in source order:
`#DIV/0!` → `NaN`, `.` → `NaN`, then `%`, `,`, `$` removed. -/
def replChain (s : String) : String :=
  strReplace (strReplace (strReplace (strReplace (strReplace
    s "#DIV/0!" "NaN") "." "NaN") "%" "") "," "") "$" ""

/-- `pd.to_numeric(..., errors='coerce')` on one rendered string,
narrowed to the integral fragment: the literal `NaN`/`nan` and anything
that is not an optionally signed integer literal become missing.  The
narrowing is deliberate: decimal points cannot survive the replacement
chain, and the forms this model calls missing where pandas would parse a
number (exponents such as `1e5`, `inf`, whitespace-padded digits) do not
touch any stated fact, which only ever distinguishes `number-or-missing`
from an exception or pins down plain-digit inputs. -/
def strToNumeric (s : String) : Cell :=
  if s = "NaN" ∨ s = "nan" then Cell.missing
  else
    match parseIntStr s with
    | some n => Cell.num n
    | none => Cell.missing

/-- Is the cell a number? -/
def isNumCell : Cell → Bool
  | Cell.num _ => true
  | _ => false

/-- Is the cell a string? -/
def isStrCell : Cell → Bool
  | Cell.str _ => true
  | _ => false

/-- The cells of the column at position `j`. -/
def colCells (df : Table) (j : Nat) : List Cell :=
  df.data.map (fun p => p.2.getD j Cell.missing)

/-- pandas `StringMethods._validate` on one object column: the `.str`
accessor is allowed when the inferred content type is in
`string / empty / bytes / mixed / mixed-integer`, i.e. the column is
all-missing, contains a string, or has no numeric cell; it raises
`AttributeError` exactly when the non-missing cells are homogeneously
numeric (inferred `integer`/`floating`). -/
def strAccessorOk (cells : List Cell) : Bool :=
  !cells.any isNumCell || cells.any isStrCell

/-- Does `cleaning_values` raise?  True when some object column fails
the `.str` accessor validation.  (The source validates column by column
inside the loop; only the first failure's exception escapes, but the
exception and message are the same whichever column fails, so the
observable outcome only depends on whether some column fails.) -/
def cleaningRaises (df : Table) : Bool :=
  (List.range df.colDtypes.length).any fun j =>
    decide (df.colDtypes.getD j CDtype.numeric = CDtype.obj)
      && !strAccessorOk (colCells df j)

/-- One object-column cell through a validated column of
`cleaning_values`: a string goes through the replacement chain and
numeric coercion; a non-string cell becomes missing (on the mixed and
all-missing columns the `.str` accessor accepts, its methods yield `NaN`
on every non-string element, and `to_numeric` keeps it missing). -/
def cleanCellObj : Cell → Cell
  | Cell.str s => strToNumeric (replChain s)
  | _ => Cell.missing

/-- `DFCleaner.cleaning_values`: if some object/string column holds
homogeneously non-string values, the `.str` accessor raises
`AttributeError`; otherwise every object/string column is rewritten
cell-wise by `cleanCellObj` and becomes numeric, numeric columns being
left untouched. -/
def cleaning_values (df : Table) : Except String Table :=
  if cleaningRaises df then
    Except.error "AttributeError: Can only use .str accessor with string values!"
  else
    Except.ok { df with
      colDtypes := df.colDtypes.map (fun dt => if dt = CDtype.obj then CDtype.numeric else dt),
      data := df.data.map (fun p =>
        (p.1, List.zipWith (fun dt c => if dt = CDtype.obj then cleanCellObj c else c)
          df.colDtypes p.2)) }

/-! ## Heap model for the copy discipline

Each of `to_time`, `clean_dates` and `cleaning_values` starts with
`df = df.copy()` and performs every subsequent (possibly in-place)
mutation on that copy.  To state this as a frame property, a heap of
table objects is made explicit: the caller passes a reference, the
function appends a copy and writes only at the copy's reference. -/

abbrev Heap := List Table

/-- Heap-level `to_time`: copy the argument object, run the pipeline on
the copy, write the result at the copy's reference only. -/
def to_timeH (gp : Bool → Cell → Option Int)
    (inferF : List IdxVal → Except String (Option String))
    (cfg : Option String) (off : String → Int)
    (h : Heap) (r : Nat) (time_col : Option String) (dayfirst : Bool) :
    Heap × Except String (Nat × String) :=
  let t := h.getD r default
  let h1 := h ++ [t]
  match to_time gp inferF cfg off t time_col dayfirst with
  | Except.ok (t2, f) => (h1.set h.length t2, Except.ok (h.length, f))
  | Except.error e => (h1, Except.error e)

/-- Heap-level `clean_dates`. -/
def clean_datesH (now : Int) (h : Heap) (r : Nat) (time_freq : String) :
    Heap × Except String Nat :=
  let t := h.getD r default
  let h1 := h ++ [t]
  match clean_dates now t time_freq with
  | Except.ok t2 => (h1.set h.length t2, Except.ok h.length)
  | Except.error e => (h1, Except.error e)

/-- Heap-level `cleaning_values`. -/
def cleaning_valuesH (h : Heap) (r : Nat) : Heap × Except String Nat :=
  let t := h.getD r default
  let h1 := h ++ [t]
  match cleaning_values t with
  | Except.ok t2 => (h1.set h.length t2, Except.ok h.length)
  | Except.error e => (h1, Except.error e)

/-! ## Concrete instantiations of the external parameters -/

/-- A general parser that never parses (all cells coerce to `NaT`). -/
def gpNone : Bool → Cell → Option Int := fun _ _ => none

/-- An `infer_freq` that finds no stable pattern. -/
def infNone : List IdxVal → Except String (Option String) := fun _ => Except.ok none

/-- An `infer_freq` that raises. -/
def infRaise : List IdxVal → Except String (Option String) := fun _ => Except.error "boom"

/-- A zone-offset table where every zone has offset zero. -/
def offZero : String → Int := fun _ => 0

/-- A one-column, one-row table with no time-like column name. -/
def dfPlain : Table := ⟨["foo"], [CDtype.obj], [(IdxVal.pos 0, [Cell.str "x"])], IdxDtype.range⟩

/-- A `year` column holding a non-year string. -/
def dfYearHello : Table :=
  ⟨["year"], [CDtype.obj], [(IdxVal.pos 0, [Cell.str "hello"])], IdxDtype.range⟩

/-- An object column holding only an integer: its inferred content type
is `integer`, which the `.str` accessor rejects. -/
def dfIntObj : Table :=
  ⟨["v"], [CDtype.obj], [(IdxVal.pos 0, [Cell.num 5])], IdxDtype.range⟩

/-- A table with a `date` column ahead of a `timestamp` column. -/
def dfDateTs : Table :=
  ⟨["date", "timestamp"], [CDtype.obj, CDtype.numeric],
   [(IdxVal.pos 0, [Cell.str "2024-01-01", Cell.num 1700000000000])], IdxDtype.range⟩

/-- The result of `to_time` on `dfDateTs`: the `date` column became the
index (unparsable, hence `NaT`), while the `timestamp` column is left as
a raw data column. -/
def dfDateTsOut : Table :=
  ⟨["timestamp"], [CDtype.numeric],
   [(IdxVal.missing, [Cell.num 1700000000000])], IdxDtype.dtime none⟩

/-- A table whose only column is `timestamp`. -/
def dfTsOnly : Table :=
  ⟨["timestamp"], [CDtype.numeric],
   [(IdxVal.pos 0, [Cell.num 1700000000000])], IdxDtype.range⟩

/-- A table with a naive timestamp index on 2024-06-09 and 2024-06-11
(deliberately out of order). -/
def dfJune : Table :=
  ⟨["v"], [CDtype.numeric],
   [(IdxVal.ts (dms 2024 6 11), [Cell.num 2]), (IdxVal.ts (dms 2024 6 9), [Cell.num 1])],
   IdxDtype.dtime none⟩

/-- A table whose every row is inside the current month for
`now` on 2024-06-12. -/
def dfJuneOnly : Table :=
  ⟨["v"], [CDtype.numeric],
   [(IdxVal.ts (dms 2024 6 5), [Cell.num 1]), (IdxVal.ts (dms 2024 6 3), [Cell.num 2])],
   IdxDtype.dtime none⟩

/-- A one-object-column table around a single cell. -/
def onecol (c : Cell) : Table :=
  ⟨["v"], [CDtype.obj], [(IdxVal.pos 0, [c])], IdxDtype.range⟩

/-- The image of `onecol` under `cleaning_values`: same shape, numeric
dtype. -/
def onecolOut (c : Cell) : Table :=
  ⟨["v"], [CDtype.numeric], [(IdxVal.pos 0, [c])], IdxDtype.range⟩

deriving instance DecidableEq for Except

/-! ## Supporting lemmas -/

theorem shiftIdx_zero (v : IdxVal) : shiftIdx 0 v = v := by
  cases v <;> simp [shiftIdx]

theorem map_shift_zero (l : List (IdxVal × List Cell)) :
    l.map (fun p => (shiftIdx 0 p.1, p.2)) = l := by
  induction l with
  | nil => rfl
  | cons a t ih => simp [shiftIdx_zero, ih]

theorem detectGo_eq_find (tc : List String) (cols : List String) :
    detectGo tc cols = cols.find? (fun c => memStr (lowerStr c) tc) := by
  induction cols with
  | nil => rfl
  | cons c rest ih =>
    by_cases h : memStr (lowerStr c) tc = true
    · simp [detectGo, h]
    · simp [detectGo, h, ih]

theorem mapMExc_ok_length (f : Cell → Except String IdxVal) :
    ∀ (l : List Cell) (out : List IdxVal), mapMExc f l = Except.ok out →
      out.length = l.length := by
  intro l
  induction l with
  | nil => intro out h; cases h; rfl
  | cons c rest ih =>
    intro out h
    unfold mapMExc at h
    cases hc : f c with
    | error e => rw [hc] at h; cases h
    | ok v =>
      rw [hc] at h
      cases hr : mapMExc f rest with
      | error e => rw [hr] at h; cases h
      | ok vs =>
        rw [hr] at h
        cases h
        simp [ih vs hr]

theorem map_fst_zipWith_pair (g : IdxVal × List Cell → List Cell) :
    ∀ (idx : List IdxVal) (data : List (IdxVal × List Cell)),
      idx.length = data.length →
      (List.zipWith (fun v p => (v, g p)) idx data).map Prod.fst = idx := by
  intro idx
  induction idx with
  | nil => intro data _; rfl
  | cons v rest ih =>
    intro data hlen
    cases data with
    | nil => cases hlen
    | cons p prest =>
      simp only [List.zipWith, List.map]
      rw [ih prest (by simpa using hlen)]

theorem getColCells_length (df : Table) (c : String) (cells : List Cell)
    (h : getColCells df c = some cells) : cells.length = df.data.length := by
  unfold getColCells at h
  cases hci : colIdx c df.colNames with
  | none => rw [hci] at h; cases h
  | some i =>
    rw [hci] at h
    cases h
    simp

theorem cleaningRaises_eq_false_iff (df : Table) :
    cleaningRaises df = false ↔
      ∀ j, j < df.colDtypes.length →
        df.colDtypes.getD j CDtype.numeric = CDtype.obj →
        strAccessorOk (colCells df j) = true := by
  unfold cleaningRaises
  rw [← Bool.not_eq_true, List.any_eq_true]
  constructor
  · intro hno j hj hobj
    by_cases hok : strAccessorOk (colCells df j) = true
    · exact hok
    · have hokf : strAccessorOk (colCells df j) = false := by
        revert hok; cases strAccessorOk (colCells df j) <;> simp
      exact absurd ⟨j, List.mem_range.mpr hj, by rw [hobj, hokf]; decide⟩ hno
  · intro hall hex
    obtain ⟨j, hjmem, hj⟩ := hex
    simp only [Bool.and_eq_true, decide_eq_true_eq, Bool.not_eq_true'] at hj
    exact absurd (hall j (List.mem_range.mp hjmem) hj.1) (by simp [hj.2])

theorem apply_timezone_keeps_naive_index (cfg : Option String) (off : String → Int)
    (df : Table) (h : df.idxDtype = IdxDtype.dtime none) :
    (apply_timezone cfg off df).index = df.index := by
  obtain ⟨cn, cd, data, idt⟩ := df
  simp only at h
  subst h
  cases cfg <;> rfl

theorem clean_dates_eq_boundary (now : Int) (df : Table) (f : String) (tz : Option String)
    (h : df.idxDtype = IdxDtype.dtime tz) :
    clean_dates now df f = Except.ok (sortTable (filterLt df (boundaryOf now tz f))) := by
  obtain ⟨cn, cd, data, idt⟩ := df
  simp only at h
  subst h
  show Except.ok _ = _
  unfold boundaryOf
  split_ifs <;> rfl

theorem to_time_ok_cases (gp : Bool → Cell → Option Int)
    (inferF : List IdxVal → Except String (Option String))
    (cfg : Option String) (off : String → Int)
    (df : Table) (tc : Option String) (b : Bool) (t : Table) (f : String)
    (h : to_time gp inferF cfg off df tc b = Except.ok (t, f)) :
    (t = df ∧ f = "D") ∨ f = freqOf inferF t.index := by
  simp only [to_time] at h
  split at h
  · simp only [Except.ok.injEq, Prod.mk.injEq] at h
    exact Or.inl ⟨h.1.symm, h.2.symm⟩
  · split at h
    · simp at h
    · split at h
      · simp at h
      · simp only [Except.ok.injEq, Prod.mk.injEq] at h
        obtain ⟨h1, h2⟩ := h
        subst h1
        exact Or.inr h2.symm

/-! ## Claim theorems -/

/-- C3: for every table and every fixed timezone configuration (a zone
identifier or none), running `apply_timezone` twice in succession
produces the same table — in particular the same index — as running it
once. -/
theorem apply_timezone_idempotent (cfg : Option String) (off : String → Int) (df : Table) :
    apply_timezone cfg off (apply_timezone cfg off df) = apply_timezone cfg off df := by
  obtain ⟨cn, cd, data, idt⟩ := df
  cases idt with
  | range => rfl
  | int64 => rfl
  | dtime tz =>
    cases cfg with
    | none => cases tz <;> rfl
    | some z =>
      cases tz with
      | none =>
        show Table.mk cn cd (data.map fun p => (shiftIdx (off z - off z) p.1, p.2))
            (IdxDtype.dtime (some z)) = Table.mk cn cd data (IdxDtype.dtime (some z))
        rw [sub_self, map_shift_zero]
      | some z0 =>
        show Table.mk cn cd
            ((data.map fun p => (shiftIdx (off z - off z0) p.1, p.2)).map
              fun p => (shiftIdx (off z - off z) p.1, p.2))
            (IdxDtype.dtime (some z)) = _
        rw [sub_self, map_shift_zero]
        rfl

/-- C5: for every table with no time-like column (no explicit column
argument and the detector returns none), `to_time` returns the table
unchanged — same columns, same rows, same index — with the Daily
frequency. -/
theorem to_time_no_time_col_passthrough (gp : Bool → Cell → Option Int)
    (inferF : List IdxVal → Except String (Option String))
    (cfg : Option String) (off : String → Int) (df : Table) (b : Bool)
    (h : detect_time_col df none = none) :
    to_time gp inferF cfg off df none b = Except.ok (df, "D") := by
  simp only [to_time, h]

/-- Witness for C5 at a concrete table with a single non-time column. -/
theorem to_time_no_time_col_passthrough_witness :
    detect_time_col dfPlain none = none ∧
    to_time gpNone infNone none offZero dfPlain none false = Except.ok (dfPlain, "D") :=
  ⟨by decide, to_time_no_time_col_passthrough gpNone infNone none offZero dfPlain false (by decide)⟩

/-- C6: whenever `to_time` returns a table whose index has fewer than 3
entries, the returned frequency is the Daily default, regardless of the
spacing of those entries (i.e. for every possible `infer_freq`). -/
theorem to_time_short_index_daily (gp : Bool → Cell → Option Int)
    (inferF : List IdxVal → Except String (Option String))
    (cfg : Option String) (off : String → Int)
    (df : Table) (tc : Option String) (b : Bool) (t : Table) (f : String)
    (h : to_time gp inferF cfg off df tc b = Except.ok (t, f))
    (hlen : t.data.length < 3) : f = "D" := by
  rcases to_time_ok_cases gp inferF cfg off df tc b t f h with ⟨_, rfl⟩ | rfl
  · rfl
  · have hl : t.index.length = t.data.length := by simp [Table.index]
    unfold freqOf
    rw [if_neg (by omega)]

/-- Witness for C6 at a concrete table whose resulting index has one
entry, with an `infer_freq` that would report weekly spacing if asked. -/
theorem to_time_short_index_daily_witness :
    to_time gpNone (fun _ => Except.ok (some "W")) none offZero dfDateTs none false =
      Except.ok (dfDateTsOut, "D") ∧
    dfDateTsOut.data.length < 3 ∧
    ("D" : String) = "D" :=
  ⟨by decide, by decide,
    to_time_short_index_daily gpNone (fun _ => Except.ok (some "W")) none offZero dfDateTs none
      false dfDateTsOut "D" (by decide) (by decide)⟩

/-- C7: `cleaning_values` sends every textual cell through the literal
replacements in source order — `#DIV/0!` to the `NaN` marker, then `.` to
the `NaN` marker, then `%`, `,`, `$` stripped — and then coerces to a
number, anything still unparsable becoming missing; `"12%"` yields `12`,
`"#DIV/0!"` yields missing, and `"$1,234.56"` is broken by the `.`
replacement and yields missing rather than `1234.56`. -/
theorem cleaning_values_replacement_chain :
    (∀ s : String,
      cleaning_values (onecol (Cell.str s)) =
        Except.ok (onecolOut (strToNumeric (strReplace (strReplace (strReplace (strReplace
          (strReplace s "#DIV/0!" "NaN") "." "NaN") "%" "") "," "") "$" "")))) ∧
    cleaning_values (onecol (Cell.str "12%")) = Except.ok (onecolOut (Cell.num 12)) ∧
    cleaning_values (onecol (Cell.str "#DIV/0!")) = Except.ok (onecolOut Cell.missing) ∧
    cleaning_values (onecol (Cell.str "$1,234.56")) = Except.ok (onecolOut Cell.missing) :=
  ⟨fun _ => rfl, by decide, by decide, by decide⟩

/-- C8: `detect_time_col` returns the first column, in existing column
order, whose lowercased name is in the fixed vocabulary extended — for
this call only, the extension being a pure function of the hint — by the
lowercased hint, and returns none exactly when no column matches. -/
theorem detect_time_col_first_match (df : Table) (hint : Option String) :
    detect_time_col df hint =
      df.colNames.find? (fun c => memStr (lowerStr c) (hintVocab hint)) ∧
    hintVocab hint = (match hint with
      | some cc => time_cols_base ++ [lowerStr cc]
      | none => time_cols_base) ∧
    (detect_time_col df hint = none ↔
      ∀ c ∈ df.colNames, memStr (lowerStr c) (hintVocab hint) = false) := by
  have h1 := detectGo_eq_find (hintVocab hint) df.colNames
  refine ⟨h1, by cases hint <;> rfl, ?_⟩
  rw [show detect_time_col df hint = _ from h1, List.find?_eq_none]
  simp

/-- C2 counterexample: an exception does escape the Timestamp Indexer,
and one escapes the Numeric Normalizer too.  On a `year` column holding
the unparsable cell `"hello"`, `to_time` raises
(`pd.to_datetime(..., format='%Y')` is called without `errors='coerce'`)
instead of turning the cell into a missing value; and on an object
column holding only the integer 5, `cleaning_values` raises the `.str`
accessor's `AttributeError` instead of coercing the cell. -/
theorem to_time_year_unparsable_raises :
    to_time gpNone infNone none offZero dfYearHello none false =
      Except.error "time data hello does not match format %Y" ∧
    cleaning_values dfIntObj =
      Except.error "AttributeError: Can only use .str accessor with string values!" := by
  exact ⟨by decide, by decide⟩

/-- C2 as amended: any `infer_freq` failure is absorbed into the Daily
default; in the Timestamp Indexer the general parsing branch — any
resolved column not named `year` or `timestamp` — never raises
(relative to the total fixed-offset timezone model of
`apply_timezone`), unparsable cells becoming missing, while the `year`
and `timestamp` branches can raise on unparsable cells; and the Numeric
Normalizer raises exactly when some object column fails the `.str`
accessor validation (its non-missing cells homogeneously numeric), every
cell of an accepted column becoming a number or missing. -/
theorem to_time_error_discipline :
    (∀ (gp : Bool → Cell → Option Int) (inferF : List IdxVal → Except String (Option String))
       (cfg : Option String) (off : String → Int) (df : Table) (c : String) (b : Bool)
       (cells : List Cell),
        getColCells df c = some cells →
        lowerStr c ≠ "year" → lowerStr c ≠ "timestamp" →
        ∃ t f, to_time gp inferF cfg off df (some c) b = Except.ok (t, f)) ∧
    (∀ (inferF : List IdxVal → Except String (Option String)) (idx : List IdxVal) (e : String),
        inferF idx = Except.error e → freqOf inferF idx = "D") ∧
    (∀ (gp : Bool → Cell → Option Int) (b : Bool) (cell : Cell),
        gp b cell = none → coerceG gp b cell = IdxVal.missing) ∧
    (∀ c : Cell, cleanCellObj c = Cell.missing ∨ ∃ n, cleanCellObj c = Cell.num n) ∧
    (∀ df : Table, (∃ t, cleaning_values df = Except.ok t) ↔
      ∀ j, j < df.colDtypes.length →
        df.colDtypes.getD j CDtype.numeric = CDtype.obj →
        strAccessorOk (colCells df j) = true) := by
  refine ⟨?_, ?_, ?_, ?_, ?_⟩
  · intro gp inferF cfg off df c b cells hcells hy ht
    refine ⟨apply_timezone cfg off
        (set_indexT df c (cells.map (coerceG gp b)) (IdxDtype.dtime none)),
      freqOf inferF (apply_timezone cfg off
        (set_indexT df c (cells.map (coerceG gp b)) (IdxDtype.dtime none))).index, ?_⟩
    simp only [to_time, hcells, parseColumn, if_neg hy, if_neg ht]
  · intro inferF idx e he
    unfold freqOf
    split
    · rw [he]
    · rfl
  · intro gp b cell hnone
    cases cell <;> simp [coerceG, hnone]
  · intro c
    cases c with
    | str s =>
      show strToNumeric (replChain s) = Cell.missing ∨ ∃ n, strToNumeric (replChain s) = Cell.num n
      unfold strToNumeric
      split
      · exact Or.inl rfl
      · cases parseIntStr (replChain s) with
        | none => exact Or.inl rfl
        | some n => exact Or.inr ⟨n, rfl⟩
    | num n => exact Or.inl rfl
    | missing => exact Or.inl rfl
  · intro df
    constructor
    · rintro ⟨t, ht⟩
      unfold cleaning_values at ht
      by_cases hc : cleaningRaises df = true
      · rw [if_pos hc] at ht; cases ht
      · exact (cleaningRaises_eq_false_iff df).mp (by
          revert hc; cases cleaningRaises df <;> simp)
    · intro hall
      have hf : cleaningRaises df = false := (cleaningRaises_eq_false_iff df).mpr hall
      refine ⟨{ df with
          colDtypes := df.colDtypes.map
            (fun dt => if dt = CDtype.obj then CDtype.numeric else dt),
          data := df.data.map (fun p =>
            (p.1, List.zipWith (fun dt c => if dt = CDtype.obj then cleanCellObj c else c)
              df.colDtypes p.2)) }, ?_⟩
      unfold cleaning_values
      rw [hf]
      rfl

/-- Witness for the amended C2: the general branch succeeds on an
explicit non-time-named column, a raising `infer_freq` yields Daily, an
unparsable cell coerces to missing, the normalizer output on a junk
string is missing, and the normalizer succeeds on a table whose only
object column holds a string. -/
theorem to_time_error_discipline_witness :
    (∃ t f, to_time gpNone infNone none offZero dfPlain (some "foo") false = Except.ok (t, f)) ∧
    freqOf infRaise [IdxVal.ts 0, IdxVal.ts 1, IdxVal.ts 2] = "D" ∧
    coerceG gpNone false (Cell.str "junk") = IdxVal.missing ∧
    (cleanCellObj (Cell.str "junk") = Cell.missing ∨
      ∃ n, cleanCellObj (Cell.str "junk") = Cell.num n) ∧
    (∃ t, cleaning_values (onecol (Cell.str "12%")) = Except.ok t) :=
  ⟨to_time_error_discipline.1 gpNone infNone none offZero dfPlain "foo" false
      [Cell.str "x"] (by decide) (by decide) (by decide),
   to_time_error_discipline.2.1 infRaise [IdxVal.ts 0, IdxVal.ts 1, IdxVal.ts 2] "boom" rfl,
   to_time_error_discipline.2.2.1 gpNone false (Cell.str "junk") rfl,
   to_time_error_discipline.2.2.2.1 (Cell.str "junk"),
   (to_time_error_discipline.2.2.2.2 (onecol (Cell.str "12%"))).mpr (by decide)⟩

/-- C4 counterexample: a table containing a `timestamp` column whose
integer values are NOT interpreted as milliseconds since the epoch,
because an earlier `date` column wins the detector scan.  The output
still carries the raw `timestamp` data column and its index is the
(unparsed, missing) `date` value, not the millisecond instant. -/
theorem to_time_timestamp_not_resolved :
    to_time gpNone infNone none offZero dfDateTs none false = Except.ok (dfDateTsOut, "D") ∧
    dfDateTsOut.colNames = ["timestamp"] ∧
    dfDateTsOut.data = [(IdxVal.missing, [Cell.num 1700000000000])] ∧
    dfDateTsOut.index ≠ [IdxVal.ts 1700000000000] := by
  refine ⟨by decide, rfl, rfl, by decide⟩

/-- C4 as amended: for every table whose resolved time column — the
explicit argument, or else the first column matching the detector's
vocabulary — is named case-insensitively `timestamp`, `to_time`
interprets that column's integer values as milliseconds since the Unix
epoch; in particular the value 1700000000000 becomes the instant
2023-11-14T22:13:20Z. -/
theorem to_time_timestamp_ms (gp : Bool → Cell → Option Int)
    (inferF : List IdxVal → Except String (Option String))
    (cfg : Option String) (off : String → Int)
    (df : Table) (tc : Option String) (b : Bool) (c : String)
    (cells : List Cell) (idx : List IdxVal)
    (hres : tc = some c ∨ (tc = none ∧ detect_time_col df none = some c))
    (hlow : lowerStr c = "timestamp")
    (hcells : getColCells df c = some cells)
    (hparse : mapMExc parseMsCell cells = Except.ok idx) :
    (∃ f, to_time gp inferF cfg off df tc b =
        Except.ok (apply_timezone cfg off (set_indexT df c idx (IdxDtype.dtime none)), f)) ∧
    (apply_timezone cfg off (set_indexT df c idx (IdxDtype.dtime none))).index = idx ∧
    (∀ n : Int, parseMsCell (Cell.num n) = Except.ok (IdxVal.ts n)) ∧
    msToCivil 1700000000000 = ((2023, 11, 14), (22, 13, 20)) := by
  have hpc : parseColumn gp b c cells = Except.ok (idx, IdxDtype.dtime none) := by
    unfold parseColumn
    rw [hlow]
    rw [if_neg (by decide), if_pos rfl, hparse]
  have hidx : (set_indexT df c idx (IdxDtype.dtime none)).index = idx ∧
      (set_indexT df c idx (IdxDtype.dtime none)).idxDtype = IdxDtype.dtime none := by
    have hlen : idx.length = df.data.length := by
      rw [mapMExc_ok_length parseMsCell cells idx hparse]
      exact getColCells_length df c cells hcells
    unfold getColCells at hcells
    cases hci : colIdx c df.colNames with
    | none => rw [hci] at hcells; cases hcells
    | some i =>
      unfold set_indexT
      rw [hci]
      exact ⟨map_fst_zipWith_pair _ idx df.data hlen, rfl⟩
  refine ⟨⟨freqOf inferF (apply_timezone cfg off
      (set_indexT df c idx (IdxDtype.dtime none))).index, ?_⟩, ?_, fun n => rfl, by decide⟩
  · rcases hres with rfl | ⟨rfl, hdet⟩
    · simp only [to_time, hcells, hpc]
    · simp only [to_time, hdet, hcells, hpc]
  · rw [apply_timezone_keeps_naive_index cfg off _ hidx.2]
    exact hidx.1

/-- Witness for the amended C4: a table whose only column is
`timestamp`, holding 1700000000000. -/
theorem to_time_timestamp_ms_witness :
    (detect_time_col dfTsOnly none = some "timestamp" ∧
      lowerStr "timestamp" = "timestamp" ∧
      getColCells dfTsOnly "timestamp" = some [Cell.num 1700000000000] ∧
      mapMExc parseMsCell [Cell.num 1700000000000] = Except.ok [IdxVal.ts 1700000000000]) ∧
    ((∃ f, to_time gpNone infNone none offZero dfTsOnly none false =
        Except.ok (apply_timezone none offZero
          (set_indexT dfTsOnly "timestamp" [IdxVal.ts 1700000000000] (IdxDtype.dtime none)), f)) ∧
      (apply_timezone none offZero
        (set_indexT dfTsOnly "timestamp" [IdxVal.ts 1700000000000] (IdxDtype.dtime none))).index =
        [IdxVal.ts 1700000000000] ∧
      (∀ n : Int, parseMsCell (Cell.num n) = Except.ok (IdxVal.ts n)) ∧
      msToCivil 1700000000000 = ((2023, 11, 14), (22, 13, 20))) :=
  ⟨⟨by decide, by decide, by decide, by decide⟩,
    to_time_timestamp_ms gpNone infNone none offZero dfTsOnly none false "timestamp"
      [Cell.num 1700000000000] [IdxVal.ts 1700000000000]
      (Or.inr ⟨rfl, by decide⟩) (by decide) (by decide) (by decide)⟩

/-- C1: for every table with a timestamp index, `clean_dates` keeps
exactly the rows strictly before the current-period boundary: when the
computed `today` is Wednesday 2024-06-12 the Weekly boundary is Monday
2024-06-10 00:00 (a 2024-06-09 row is kept, a 2024-06-10 row is removed)
and the Monthly boundary is 2024-06-01; when `today` is 2024-08-01 the
Quarterly boundary is 2024-07-01. -/
theorem clean_dates_period_boundaries (df : Table) (tz : Option String)
    (nw nm nq : Int) (hdt : df.idxDtype = IdxDtype.dtime tz) :
    (todayOf nw tz = dms 2024 6 12 →
      clean_dates nw df "W" = Except.ok (sortTable (filterLt df (dms 2024 6 10)))) ∧
    (todayOf nm tz = dms 2024 6 12 →
      clean_dates nm df "M" = Except.ok (sortTable (filterLt df (dms 2024 6 1)))) ∧
    (todayOf nq tz = dms 2024 8 1 →
      clean_dates nq df "Q" = Except.ok (sortTable (filterLt df (dms 2024 7 1)))) ∧
    idxLT (IdxVal.ts (dms 2024 6 9)) (dms 2024 6 10) = true ∧
    idxLT (IdxVal.ts (dms 2024 6 10)) (dms 2024 6 10) = false := by
  refine ⟨?_, ?_, ?_, by decide, by decide⟩
  · intro h
    rw [clean_dates_eq_boundary nw df "W" tz hdt]
    have hb : boundaryOf nw tz "W" = dms 2024 6 10 := by
      unfold boundaryOf
      rw [h]
      decide
    rw [hb]
  · intro h
    rw [clean_dates_eq_boundary nm df "M" tz hdt]
    have hb : boundaryOf nm tz "M" = dms 2024 6 1 := by
      unfold boundaryOf
      rw [h]
      decide
    rw [hb]
  · intro h
    rw [clean_dates_eq_boundary nq df "Q" tz hdt]
    have hb : boundaryOf nq tz "Q" = dms 2024 7 1 := by
      unfold boundaryOf
      rw [h]
      decide
    rw [hb]

/-- Witness for C1 on a concrete naive-indexed table, with a concrete
evaluation of the weekly result: the 2024-06-09 row survives, the
2024-06-11 row is trimmed. -/
theorem clean_dates_period_boundaries_witness :
    dfJune.idxDtype = IdxDtype.dtime none ∧
    todayOf (dms 2024 6 12) none = dms 2024 6 12 ∧
    todayOf (dms 2024 8 1) none = dms 2024 8 1 ∧
    clean_dates (dms 2024 6 12) dfJune "W" =
      Except.ok (sortTable (filterLt dfJune (dms 2024 6 10))) ∧
    clean_dates (dms 2024 6 12) dfJune "M" =
      Except.ok (sortTable (filterLt dfJune (dms 2024 6 1))) ∧
    clean_dates (dms 2024 8 1) dfJune "Q" =
      Except.ok (sortTable (filterLt dfJune (dms 2024 7 1))) ∧
    clean_dates (dms 2024 6 12) dfJune "W" =
      Except.ok ⟨["v"], [CDtype.numeric],
        [(IdxVal.ts (dms 2024 6 9), [Cell.num 1])], IdxDtype.dtime none⟩ :=
  ⟨rfl, by decide, by decide,
   (clean_dates_period_boundaries dfJune none (dms 2024 6 12) (dms 2024 6 12)
      (dms 2024 8 1) rfl).1 (by decide),
   (clean_dates_period_boundaries dfJune none (dms 2024 6 12) (dms 2024 6 12)
      (dms 2024 8 1) rfl).2.1 (by decide),
   (clean_dates_period_boundaries dfJune none (dms 2024 6 12) (dms 2024 6 12)
      (dms 2024 8 1) rfl).2.2.1 (by decide),
   by decide⟩

/-- C9: for every table with a timestamp index and every frequency, the
table returned by `clean_dates` keeps the original column set and is
sorted ascending by index, and when every row of the input falls at or
after the current-period boundary the result has zero rows. -/
theorem clean_dates_sorted_and_empty (now : Int) (df : Table) (f : String)
    (tz : Option String) (hdt : df.idxDtype = IdxDtype.dtime tz) :
    ∃ t, clean_dates now df f = Except.ok t ∧
      t.colNames = df.colNames ∧ t.colDtypes = df.colDtypes ∧
      List.Sorted idxLE t.index ∧
      ((∀ v ∈ df.index, ∃ c, v = IdxVal.ts c ∧ boundaryOf now tz f ≤ c) →
        t.data = []) := by
  refine ⟨sortTable (filterLt df (boundaryOf now tz f)),
    clean_dates_eq_boundary now df f tz hdt, rfl, rfl, ?_, ?_⟩
  · have hs : List.Sorted rowLE
        (List.insertionSort rowLE (filterLt df (boundaryOf now tz f)).data) :=
      List.sorted_insertionSort rowLE _
    exact List.Pairwise.map Prod.fst (fun a b hab => hab) hs
  · intro hall
    have hnil : (filterLt df (boundaryOf now tz f)).data = [] := by
      simp only [filterLt]
      rw [List.filter_eq_nil_iff]
      intro p hp
      obtain ⟨c, hc, hbc⟩ := hall p.1 (List.mem_map_of_mem Prod.fst hp)
      rw [hc]
      simp only [idxLT, decide_eq_true_eq]
      omega
    show List.insertionSort rowLE (filterLt df (boundaryOf now tz f)).data = []
    rw [hnil]
    rfl

/-- Witness for C9 on a concrete all-in-current-month table: the result
is the empty table with the `v` column preserved. -/
theorem clean_dates_sorted_and_empty_witness :
    dfJuneOnly.idxDtype = IdxDtype.dtime none ∧
    (∃ t, clean_dates (dms 2024 6 12) dfJuneOnly "M" = Except.ok t ∧
      t.colNames = dfJuneOnly.colNames ∧ t.colDtypes = dfJuneOnly.colDtypes ∧
      List.Sorted idxLE t.index ∧
      ((∀ v ∈ dfJuneOnly.index, ∃ c, v = IdxVal.ts c ∧
          boundaryOf (dms 2024 6 12) none "M" ≤ c) → t.data = [])) ∧
    clean_dates (dms 2024 6 12) dfJuneOnly "M" =
      Except.ok ⟨["v"], [CDtype.numeric], [], IdxDtype.dtime none⟩ :=
  ⟨rfl, clean_dates_sorted_and_empty (dms 2024 6 12) dfJuneOnly "M" none rfl, by decide⟩

theorem getq_append {α : Type} (l1 l2 : List α) (r : Nat) (h : r < l1.length) :
    (l1 ++ l2)[r]? = l1[r]? := by
  induction l1 generalizing r with
  | nil => cases h
  | cons a t ih =>
    cases r with
    | zero => simp
    | succ n =>
      simp only [List.cons_append, List.getElem?_cons_succ]
      exact ih n (by simpa using h)

theorem getq_set_ne {α : Type} (l : List α) (i j : Nat) (a : α) (h : i ≠ j) :
    (l.set i a)[j]? = l[j]? := by
  induction l generalizing i j with
  | nil => rfl
  | cons b t ih =>
    cases i with
    | zero =>
      cases j with
      | zero => exact absurd rfl h
      | succ m => simp [List.set]
    | succ n =>
      cases j with
      | zero => simp [List.set]
      | succ m =>
        simp only [List.set, List.getElem?_cons_succ]
        exact ih n m (by omega)

theorem getq_set_self {α : Type} (l : List α) (i : Nat) (a : α) (h : i < l.length) :
    (l.set i a)[i]? = some a := by
  induction l generalizing i with
  | nil => cases h
  | cons b t ih =>
    cases i with
    | zero => simp [List.set]
    | succ n =>
      simp only [List.set, List.getElem?_cons_succ]
      exact ih n (by simpa using h)

/-- C10: each of `to_time`, `clean_dates` and `cleaning_values` operates
on a copy: the caller's table object (at reference `r` in the heap) is
left unchanged by the call — on every branch, raising included — and the
transformation shows up only at the fresh reference returned, exhibited
for `cleaning_values`: when the normalizer succeeds, the fresh object
holds exactly the transformed table. -/
theorem pipeline_operates_on_copies (gp : Bool → Cell → Option Int)
    (inferF : List IdxVal → Except String (Option String))
    (cfg : Option String) (off : String → Int) (now : Int)
    (h : Heap) (r : Nat) (tc : Option String) (b : Bool) (f : String)
    (hr : r < h.length) :
    ((to_timeH gp inferF cfg off h r tc b).1)[r]? = h[r]? ∧
    ((clean_datesH now h r f).1)[r]? = h[r]? ∧
    ((cleaning_valuesH h r).1)[r]? = h[r]? ∧
    (∀ t2, cleaning_values (h.getD r default) = Except.ok t2 →
      ((cleaning_valuesH h r).1)[h.length]? = some t2 ∧
      (cleaning_valuesH h r).2 = Except.ok h.length) := by
  have hne : h.length ≠ r := by omega
  have happ : ∀ t0 : Table, (h ++ [t0])[r]? = h[r]? := fun t0 => getq_append h [t0] r hr
  refine ⟨?_, ?_, ?_, ?_⟩
  · simp only [to_timeH]
    cases hto : to_time gp inferF cfg off (h.getD r default) tc b with
    | ok v =>
      obtain ⟨t2, fr⟩ := v
      dsimp only
      rw [getq_set_ne _ _ _ _ hne, happ]
    | error e =>
      dsimp only
      rw [happ]
  · simp only [clean_datesH]
    cases hcd : clean_dates now (h.getD r default) f with
    | ok t2 =>
      dsimp only
      rw [getq_set_ne _ _ _ _ hne, happ]
    | error e =>
      dsimp only
      rw [happ]
  · simp only [cleaning_valuesH]
    cases hcv : cleaning_values (h.getD r default) with
    | ok t2 =>
      dsimp only
      rw [getq_set_ne _ _ _ _ hne, happ]
    | error e =>
      dsimp only
      rw [happ]
  · intro t2 hcv
    simp only [cleaning_valuesH, hcv]
    exact ⟨getq_set_self _ _ _ (by simp), trivial⟩

/-- Witness for C10 on a one-table heap whose table the normalizer
accepts. -/
theorem pipeline_operates_on_copies_witness :
    (0 < ([onecol (Cell.str "12%")] : Heap).length) ∧
    ((to_timeH gpNone infNone none offZero [onecol (Cell.str "12%")] 0 none false).1)[0]? =
      ([onecol (Cell.str "12%")] : Heap)[0]? ∧
    ((clean_datesH (dms 2024 6 12) [onecol (Cell.str "12%")] 0 "D").1)[0]? =
      ([onecol (Cell.str "12%")] : Heap)[0]? ∧
    ((cleaning_valuesH [onecol (Cell.str "12%")] 0).1)[0]? =
      ([onecol (Cell.str "12%")] : Heap)[0]? ∧
    cleaning_values (([onecol (Cell.str "12%")] : Heap).getD 0 default) =
      Except.ok (onecolOut (Cell.num 12)) ∧
    ((cleaning_valuesH [onecol (Cell.str "12%")] 0).1)[([onecol
        (Cell.str "12%")] : Heap).length]? = some (onecolOut (Cell.num 12)) ∧
    (cleaning_valuesH [onecol (Cell.str "12%")] 0).2 =
      Except.ok ([onecol (Cell.str "12%")] : Heap).length :=
  ⟨by decide,
    (pipeline_operates_on_copies gpNone infNone none offZero (dms 2024 6 12)
      [onecol (Cell.str "12%")] 0 none false "D" (by decide)).1,
    (pipeline_operates_on_copies gpNone infNone none offZero (dms 2024 6 12)
      [onecol (Cell.str "12%")] 0 none false "D" (by decide)).2.1,
    (pipeline_operates_on_copies gpNone infNone none offZero (dms 2024 6 12)
      [onecol (Cell.str "12%")] 0 none false "D" (by decide)).2.2.1,
    by decide,
    ((pipeline_operates_on_copies gpNone infNone none offZero (dms 2024 6 12)
      [onecol (Cell.str "12%")] 0 none false "D" (by decide)).2.2.2
        (onecolOut (Cell.num 12)) (by decide)).1,
    ((pipeline_operates_on_copies gpNone infNone none offZero (dms 2024 6 12)
      [onecol (Cell.str "12%")] 0 none false "D" (by decide)).2.2.2
        (onecolOut (Cell.num 12)) (by decide)).2⟩
